import Mathlib

/-!
Verification development for the MDL AST builder
(`src/io/scene/mdl_elements/mdl_elements_ast_builder.cpp`).

The C++ rewriter converts neuray expressions/values into MDL AST
expressions.  We give a shallow embedding: strings are `List Char`,
DB tags are `Nat` (0 = invalid tag), the object store is a record of
lookup functions, and the recursive rewrite is a fuel-indexed
interpreter `run` over a task type covering the mutually recursive
C++ member functions (`transform_value`, `transform_expr`,
`transform_call` and the argument-list loops).  Side effects of one
rewrite are collected in `Eff`: emitted diagnostics, symbols pushed
into `m_used_user_types`, and the number of failed assertions
(invariant violations).
-/

/-- Character strings, modelled as lists of characters. -/
abbrev Str := List Char

/-- Coerce a Lean string literal to our string model. -/
def str (s : String) : Str := s.data

/-- Test whether `p` is an initial segment of `s` (plain `strncmp`-style check). -/
def leadsWith : Str → Str → Bool
  | [], _ => true
  | _ :: _, [] => false
  | p :: ps, c :: cs => p = c && leadsWith ps cs

/-- Index of the first occurrence of `pat` inside `s` (C `strstr`). -/
def findSubstr (pat : Str) : Str → Option Nat
  | [] => if leadsWith pat [] then some 0 else none
  | c :: cs =>
    if leadsWith pat (c :: cs) then some 0
    else (findSubstr pat cs).map (fun n => n + 1)

/-- Suffix of `s` strictly after the first occurrence of character `c`
(C `strchr` followed by `+ 1`), or `none` when `c` does not occur. -/
def afterFirstChar (c : Char) (s : Str) : Option Str :=
  match s.dropWhile (fun x => x ≠ c) with
  | [] => none
  | _ :: rest => some rest

/-- Unmangle a DAG mangled name: erase everything from the first
parenthesis on (C++ `dag_unmangle`). -/
def dag_unmangle (name : Str) : Str :=
  name.takeWhile (fun c => c ≠ '(')

/-- Remove the deprecated `$version` suffix: erase from the last dollar
sign on (C++ `remove_deprecated`). -/
def remove_deprecated (name : Str) : Str :=
  if name.contains '$' then
    (((name.reverse).dropWhile (fun c => c ≠ '$')).drop 1).reverse
  else name

/-- Field symbol of a `DS_INTRINSIC_DAG_FIELD_ACCESS` callee name
(C++ `Mdl_ast_builder::get_field_sym`): look for the module-path marker
`".mdle::"`; starting after it (or at the start of the name when absent),
take everything after the first dot. -/
def get_field_sym (dfn : Str) : Option Str :=
  let tail :=
    match findSubstr (str ".mdle::") dfn with
    | some i => dfn.drop (i + 7)
    | none => dfn
  afterFirstChar '.' tail

/-- Qualified names: an absolute flag plus the `::`-separated components
(C++ `IQualified_name`). -/
structure QualifiedName where
  absolute : Bool
  components : List Str
deriving DecidableEq, Repr

/-- Split a scoped string on the `::` separator (the loop shared by
`create_qualified_name` and `create_scope_name`). -/
def splitScope : Str → List Str
  | [] => [[]]
  | ':' :: ':' :: rest => [] :: splitScope rest
  | c :: rest =>
    match splitScope rest with
    | [] => [[c]]
    | comp :: comps => (c :: comp) :: comps

/-- Build a qualified name from a scoped string
(C++ `Mdl_ast_builder::create_qualified_name`): strip a leading `::`
(setting the absolute flag) only when the name is longer than two
characters, then split on `::`. -/
def create_qualified_name (name : Str) : QualifiedName :=
  if 2 < name.length ∧ name.take 2 = [':', ':'] then
    ⟨true, splitScope (name.drop 2)⟩
  else
    ⟨false, splitScope name⟩

/-- Build the scope part of a qualified name
(C++ `Mdl_ast_builder::create_scope_name`): like
`create_qualified_name` but without the final unqualified component. -/
def create_scope_name (name : Str) : QualifiedName :=
  if 2 < name.length ∧ name.take 2 = [':', ':'] then
    ⟨true, (splitScope (name.drop 2)).dropLast⟩
  else
    ⟨false, (splitScope name).dropLast⟩

/-! ## The neuray (input) type system -/

/-- Predefined ids of neuray enum types (`IType_enum::Predefined_id`). -/
inductive EnumPid where
  | user
  | texGammaMode
  | intensityMode
deriving DecidableEq, Repr

/-- Predefined ids of neuray struct types (`IType_struct::Predefined_id`). -/
inductive StructPid where
  | user
  | materialEmission
  | materialSurface
  | materialVolume
  | materialGeometry
  | material
deriving DecidableEq, Repr

/-- Texture shapes (`IType_texture::Shape`). -/
inductive TexShape where
  | s2d
  | s3d
  | cube
  | ptex
deriving DecidableEq, Repr

/-- Array sizes: immediate (literal) or deferred (named symbol). -/
inductive ASize where
  | immediate (n : Nat)
  | deferred (name : Str)
deriving DecidableEq, Repr

/-- Neuray types (`MI::MDL::IType`).  Aliases carry uniform/varying
modifier flags on a base type. -/
inductive MType where
  | mbool
  | mint
  | mfloat
  | mdouble
  | mstring
  | menum (sym : Str) (pid : EnumPid) (vals : List (Str × Int))
  | mvector (elem : MType) (size : Nat)
  | mmatrix (elem : MType) (cols : Nat)
  | mcolor
  | mstruct (sym : Str) (pid : StructPid)
  | mtexture (shape : TexShape)
  | mlightProfile
  | mbsdf
  | medf
  | mvdf
  | mbsdfMeasurement
  | marray (elem : MType) (sz : ASize)
  | malias (base : MType) (uniform : Bool) (varying : Bool)
deriving DecidableEq, Repr

/-- Strip all alias wrappers (C++ `IType::skip_all_type_aliases`). -/
def MType.skipAliases : MType → MType
  | .malias base _ _ => base.skipAliases
  | t => t

/-- Collect the uniform/varying modifiers over the alias chain
(C++ `IType::get_all_type_modifiers`). -/
def MType.allMods : MType → Bool × Bool
  | .malias base u v =>
    match base.allMods with
    | (u', v') => (u || u', v || v')
  | _ => (false, false)

/-! ## The MDL (output) type system -/

/-- MDL types (`mi::mdl::IType`), as far as the builder produces them. -/
inductive MdlType where
  | tbool
  | tint
  | tfloat
  | tdouble
  | tstring
  | tcolor
  | tvector (elem : MdlType) (size : Nat)
  | tmatrix (elem : MdlType) (cols : Nat)
  | ttexture (shape : TexShape)
  | tlightProfile
  | tbsdfMeasurement
  | tbsdf
  | tedf
  | tvdf
  | tenumUser (sym : Str) (vals : List (Str × Int))
  | tenumPredef (pid : EnumPid)
  | terror
deriving DecidableEq, Repr

/-- Map a non-user-defined neuray type to an MDL type
(C++ `Mdl_ast_builder::transform_type`); `none` models the `NULL`
result (with an assertion) for user-defined type kinds. -/
def transform_type : MType → Option MdlType
  | .malias _ _ _ => none
  | .menum _ _ _ => none
  | .marray _ _ => none
  | .mstruct _ _ => none
  | .mbool => some .tbool
  | .mint => some .tint
  | .mfloat => some .tfloat
  | .mdouble => some .tdouble
  | .mstring => some .tstring
  | .mvector e n => (transform_type e).map (fun a => .tvector a n)
  | .mmatrix e n => (transform_type e).map (fun v => .tmatrix v n)
  | .mcolor => some .tcolor
  | .mtexture sh => some (.ttexture sh)
  | .mlightProfile => some .tlightProfile
  | .mbsdfMeasurement => some .tbsdfMeasurement
  | .mbsdf => some .tbsdf
  | .medf => some .tedf
  | .mvdf => some .tvdf

/-- Convert a neuray enum type to an MDL enum type
(C++ `Mdl_ast_builder::convert_enum_type`).  User enums are recreated
from the symbol and the ordered (name, code) pairs; the two predefined
enums are passed through as shared built-ins. -/
def convert_enum_type (sym : Str) (pid : EnumPid) (vals : List (Str × Int)) : MdlType :=
  match pid with
  | .user => .tenumUser sym vals
  | .texGammaMode => .tenumPredef .texGammaMode
  | .intensityMode => .tenumPredef .intensityMode

/-- Name of a neuray type (C++ static `get_type_name`); the empty string
models the `""` returned on the asserting branches. -/
def get_type_name : MType → Str
  | .malias _ _ _ => []
  | .mbool => str "bool"
  | .mint => str "int"
  | .menum sym _ _ => sym
  | .mfloat => str "float"
  | .mdouble => str "double"
  | .mstring => str "string"
  | .mlightProfile => str "light_profile"
  | .mbsdf => str "bsdf"
  | .medf => str "edf"
  | .mvdf => str "vdf"
  | .mvector e n => get_type_name e ++ (Nat.repr n).data
  | .mmatrix e c =>
    match e with
    | .mvector a r => get_type_name a ++ (Nat.repr c).data ++ str "x" ++ (Nat.repr r).data
    | _ => []
  | .mcolor => str "color"
  | .mstruct sym pid =>
    match pid with
    | .user => sym
    | .materialEmission => str "material_emission"
    | .materialSurface => str "material_surface"
    | .materialVolume => str "material_volume"
    | .materialGeometry => str "material_geometry"
    | .material => str "material"
  | .mtexture sh =>
    match sh with
    | .s2d => str "texture_2d"
    | .s3d => str "texture_3d"
    | .cube => str "texture_cube"
    | .ptex => str "texture_ptex"
  | .mbsdfMeasurement => str "bsdf_measurement"
  | .marray e sz =>
    get_type_name e ++ str "[" ++
      (match sz with
       | .immediate n => (Nat.repr n).data
       | .deferred d => d) ++ str "]"

/-! ## Values, gamma modes, resources -/

/-- Texture gamma modes (`mi::mdl::IValue_texture::gamma_mode`). -/
inductive GammaMode where
  | gdefault
  | glinear
  | gsrgb
deriving DecidableEq, Repr

/-- Exact rational value of the 32-bit float literal `2.2f`. -/
def float22 : Rat := 9227469 / 4194304

/-- Exact rational value of the 32-bit float literal `1.0000001f`. -/
def floatNearOne : Rat := 8388609 / 8388608

/-- Gamma classification of a texture's declared gamma override
(the `if`/`else if`/`else` chain in C++
`get_texture_resource_name_and_gamma`, lines 1043-1050): equality
against `1.0f` gives linear, equality against `2.2f` gives sRGB, any
other value gives default.  Float values are modelled by their exact
rational values, so the comparisons are exact, tolerance-free
equalities just as in the source. -/
def classify_gamma (g : Rat) : GammaMode :=
  if g = 1 then .glinear
  else if g = float22 then .gsrgb
  else .gdefault

/-- Modelled from the spec: the content hash produced by the external
helper `get_hash` (defined in `mdl_elements_utilities`, not part of the
given sources).  Per the spec it is derived from the current store
version of the resource record and, for textures, also from the version
of the backing image; we model it as an injective constructor on those
version counters. -/
inductive Hash where
  | texHash (tagVersion imageVersion : Nat)
  | resHash (tagVersion : Nat)
deriving DecidableEq, Repr

/-- Diagnostic messages emitted through the log sink. -/
inductive Diag where
  | badTextureClass (name : Str)
  | badImageClass (name : Str)
  | badLightProfileClass (name : Str)
  | badBsdfMeasurementClass (name : Str)
deriving DecidableEq, Repr

/-- Observable side effects of one rewrite: emitted diagnostics, the
symbols appended to the session's `m_used_user_types` list, and the
number of triggered assertions (invariant violations). -/
structure Eff where
  diags : List Diag
  userTypes : List Str
  asserts : Nat
deriving DecidableEq, Repr

/-- The empty effect. -/
def Eff.nil : Eff := ⟨[], [], 0⟩

/-- Sequential composition of effects (in program order). -/
def Eff.app (a b : Eff) : Eff :=
  ⟨a.diags ++ b.diags, a.userTypes ++ b.userTypes, a.asserts + b.asserts⟩

/-- Effect of one triggered assertion. -/
def assertEff : Eff := ⟨[], [], 1⟩

/-! ## The object store -/

/-- Class ids of store records (`SERIAL::Class_id` as used by the
builder); `cinvalid` stands for the `0` used for an invalid tag. -/
inductive ClassId where
  | cinvalid
  | ctexture
  | cimage
  | clightprofile
  | cbsdfMeasurement
  | cfunctionCall
  | cfunctionDef
  | cmaterialInst
  | cmaterialDef
  | cother
deriving DecidableEq, Repr

/-- A texture record (`TEXTURE::Texture`): backing image tag and the
declared gamma override (a 32-bit float, modelled by its exact rational
value). -/
structure TextureRec where
  image : Nat
  gamma : Rat
deriving DecidableEq, Repr

/-- An image record (`DBIMAGE::Image`): the original filename. -/
structure ImageRec where
  originalFilename : Str
deriving DecidableEq, Repr

/-! ## Semantics tags, neuray values and expressions -/

/-- MDL binary operators, as far as the builder distinguishes them. -/
inductive BinOp where
  | select
  | arrayIndex
  | opCode (n : Nat)
deriving DecidableEq, Repr

/-- Semantic classification of a call
(`mi::mdl::IDefinition::Semantics`, restricted to the tags the builder
dispatches on).  Modelled from the spec: the classification of operator
semantics into unary/binary/ternary (the helpers `semantic_is_operator`,
`semantic_to_operator`, `is_unary_operator`, `is_binary_operator` live
in the MDL compiler core, which is not among the given sources); per the
spec, an operator semantic is unary, binary or ternary.  All remaining
tags are taken directly from the dispatch in `transform_call`. -/
inductive Sema where
  | opUnary (op : Nat)
  | opBinary (op : BinOp)
  | opTernary
  | measuredEdf
  | fresnelLayer
  | spotEdf
  | roundedCornerNormal
  | texWidth
  | texHeight
  | texelFloat
  | texelFloat2
  | texelFloat3
  | texelFloat4
  | texelColor
  | dagFieldAccess
  | dagIndexAccess
  | dagArrayConstructor
  | dagArrayLength
  | dagSetObjectId
  | dagSetTransforms
  | unknown
  | otherSema (n : Nat)
deriving DecidableEq, Repr

/-- Neuray values (`MI::MDL::IValue`).  Vector, matrix, color and
struct values are handled uniformly as compounds by the builder, so
they share one constructor carrying their compound type.  Resource
values carry the store tag (0 = invalid tag). -/
inductive NValue where
  | vbool (b : Bool)
  | vint (i : Int)
  | vfloat (q : Rat)
  | vdouble (q : Rat)
  | vstring (s : Str)
  | venum (sym : Str) (pid : EnumPid) (vals : List (Str × Int)) (idx : Nat)
  | vcompound (cty : MType) (elems : List NValue)
  | varray (ety : MType) (sz : ASize) (elems : List NValue)
  | vinvalidDf (ty : MType)
  | vtexture (shape : TexShape) (tag : Nat)
  | vlightProfile (tag : Nat)
  | vbsdfMeasurement (tag : Nat)

/-- Type of a neuray value (`IValue::get_type`). -/
def NValue.typeOf : NValue → MType
  | .vbool _ => .mbool
  | .vint _ => .mint
  | .vfloat _ => .mfloat
  | .vdouble _ => .mdouble
  | .vstring _ => .mstring
  | .venum sym pid vals _ => .menum sym pid vals
  | .vcompound cty _ => cty
  | .varray ety sz _ => .marray ety sz
  | .vinvalidDf ty => ty
  | .vtexture sh _ => .mtexture sh
  | .vlightProfile _ => .mlightProfile
  | .vbsdfMeasurement _ => .mbsdfMeasurement

/-- Neuray expressions (`MI::MDL::IExpression`).  `call` references a
stored function call / material instance by tag; `directCall`
references a definition by tag and carries its own named argument
list.  `parameter` carries the parameter index.  Each non-constant
expression carries its declared type. -/
inductive NExpr where
  | constant (v : NValue)
  | call (tag : Nat) (ty : MType)
  | directCall (tag : Nat) (ty : MType) (args : List (Str × NExpr))
  | parameter (idx : Nat) (ty : MType)
  | temporary (ty : MType)
  | force32 (ty : MType)

/-- Type of a neuray expression (`IExpression::get_type`). -/
def NExpr.typeOf : NExpr → MType
  | .constant v => v.typeOf
  | .call _ ty => ty
  | .directCall _ ty _ => ty
  | .parameter _ ty => ty
  | .temporary ty => ty
  | .force32 ty => ty

/-- A stored function definition (`Mdl_function_definition`): optional
original (re-export) name, mangled MDL name, semantics and the
parameter count. -/
structure FunDefRec where
  origName : Option Str
  mdlName : Str
  sema : Sema
  paramCount : Nat

/-- A stored function call (`Mdl_function_call`): the definition tag,
the named argument list, and the parameter count. -/
structure FunCallRec where
  defTag : Nat
  args : List (Str × NExpr)
  paramCount : Nat

/-- A stored material instance (`Mdl_material_instance`): the
definition tag and the named argument list. -/
structure MatInstRec where
  defTag : Nat
  args : List (Str × NExpr)

/-- A stored material definition (`Mdl_material_definition`):
optional original name, mangled MDL name and parameter count. -/
structure MatDefRec where
  origName : Option Str
  mdlName : Str
  paramCount : Nat

/-- The read-only, tag-addressed object store visible through the
transaction (`DB::Transaction` plus the record accessors the builder
uses).  For each accessor, the record functions are only meaningful at
tags of the corresponding class. -/
structure Store where
  classOf : Nat → ClassId
  texture : Nat → TextureRec
  image : Nat → ImageRec
  lightprofile : Nat → Str
  bsdfm : Nat → Str
  tagVersion : Nat → Nat
  tagName : Nat → Option Str
  fcall : Nat → FunCallRec
  fdef : Nat → FunDefRec
  matInst : Nat → MatInstRec
  matDef : Nat → MatDefRec

/-- Displayable name of a tag (`tag_to_name`, with the `name ? name : ""`
fallback used at the log sites). -/
def nameOf (s : Store) (tag : Nat) : Str :=
  (s.tagName tag).getD []

/-! ## The MDL AST (output side) -/

/-- MDL AST values (`mi::mdl::IValue`) as produced by the builder.
Resource values carry the (possibly empty) path, the raw tag id and the
content hash used as fallback identity; `vint2zero` is the
`create_int2_zero` literal used for the inserted `uv_tile` argument. -/
inductive MdlValue where
  | vbool (b : Bool)
  | vint (i : Int)
  | vfloat (q : Rat)
  | vdouble (q : Rat)
  | vstring (s : Str)
  | vinvalidRef (ty : Option MdlType)
  | vtexture (ty : Option MdlType) (url : Str) (gamma : GammaMode) (tagId : Nat) (hash : Hash)
  | vlightProfile (ty : Option MdlType) (url : Str) (tagId : Nat) (hash : Hash)
  | vbsdfMeasurement (ty : Option MdlType) (url : Str) (tagId : Nat) (hash : Hash)
  | vint2zero
deriving DecidableEq, Repr

/-- Type of an MDL value (`IValue::get_type`). -/
def MdlValue.typeOf : MdlValue → Option MdlType
  | .vbool _ => some .tbool
  | .vint _ => some .tint
  | .vfloat _ => some .tfloat
  | .vdouble _ => some .tdouble
  | .vstring _ => some .tstring
  | .vinvalidRef ty => ty
  | .vtexture ty _ _ _ _ => ty
  | .vlightProfile ty _ _ _ => ty
  | .vbsdfMeasurement ty _ _ _ => ty
  | .vint2zero => some (.tvector .tint 2)

mutual
/-- MDL AST expressions (`mi::mdl::IExpression`) as produced by the
builder.  References carry the type name they point at plus the
optional expression type set via `set_type`. -/
inductive MdlExpr where
  | literal (v : MdlValue)
  | reference (tn : MdlTypeName) (ty : Option MdlType)
  | unary (op : Nat) (arg : MdlExpr)
  | binary (op : BinOp) (lhs rhs : MdlExpr)
  | conditional (cond tval fval : MdlExpr)
  | call (callee : MdlExpr) (args : List MdlArg)
  | invalid

/-- Call arguments: positional or named (`mi::mdl::IArgument`). -/
inductive MdlArg where
  | positional (e : MdlExpr)
  | named (nm : Str) (e : MdlExpr)

/-- Type names (`mi::mdl::IType_name`): qualified name, frequency
qualifier, optional array size expression, incomplete-array flag, and
the optional type set via `set_type`. -/
inductive MdlTypeName where
  | mk (qname : QualifiedName) (qual : Nat) (arraySize : Option MdlExpr)
       (incompleteArray : Bool) (ty : Option MdlType)
end

/-- Frequency qualifier value `FQ_NONE`. -/
def fqNone : Nat := 0
/-- Frequency qualifier value `FQ_UNIFORM`. -/
def fqUniform : Nat := 1
/-- Frequency qualifier value `FQ_VARYING`. -/
def fqVarying : Nat := 2

/-- Replace the frequency qualifier of a type name (`set_qualifier`). -/
def MdlTypeName.setQual : MdlTypeName → Nat → MdlTypeName
  | .mk qn _ asz inc ty, q => .mk qn q asz inc ty

/-- Replace the array size of a type name (`set_array_size`). -/
def MdlTypeName.setArraySize : MdlTypeName → MdlExpr → MdlTypeName
  | .mk qn q _ inc ty, e => .mk qn q (some e) inc ty

/-- Set the incomplete-array flag of a type name (`set_incomplete_array`). -/
def MdlTypeName.setIncomplete : MdlTypeName → MdlTypeName
  | .mk qn q asz _ ty => .mk qn q asz true ty

/-- Type of an MDL AST expression (`IExpression::get_type`): only
literals and explicitly typed references carry one; freshly created
compound AST nodes are untyped. -/
def MdlExpr.getType : MdlExpr → Option MdlType
  | .literal v => v.typeOf
  | .reference _ ty => ty
  | _ => none

/-- Check for the 2-D texture type (`mi::mdl::is_tex_2d` applied to an
expression's type). -/
def is_tex_2d (e : MdlExpr) : Bool :=
  match e.getType with
  | some (.ttexture .s2d) => true
  | _ => false

/-- Reference expression for a qualified name, with optional type
(C++ `Mdl_ast_builder::to_reference(IQualified_name*, IType*)`). -/
def to_reference_q (qn : QualifiedName) (ty : Option MdlType) : MdlExpr :=
  .reference (.mk qn fqNone none false ty) ty

/-- Reference expression for a single symbol
(C++ `Mdl_ast_builder::to_reference(ISymbol const*)`): a fresh
non-absolute qualified name with that single component, untyped. -/
def to_reference_sym (sym : Str) : MdlExpr :=
  .reference (.mk ⟨false, [sym]⟩ fqNone none false none) none

/-- Build a `Type_name` AST node for a neuray type
(C++ `Mdl_ast_builder::create_type_name`); the accumulator pair carries
the modifiers collected so far over alias wrappers (mirroring
`get_all_type_modifiers` + `skip_all_type_aliases`).  `none` models the
`NULL` result on the asserting branches. -/
def create_type_name_mods (u v : Bool) : MType → Option MdlTypeName
  | .malias base bu bv => create_type_name_mods (u || bu) (v || bv) base
  | .marray elem sz =>
    match create_type_name_mods false false elem with
    | none => none
    | some tn =>
      let q := if u then fqUniform else if v then fqVarying else fqNone
      let tn := tn.setQual q
      match sz with
      | .immediate n => some (tn.setArraySize (.literal (.vint (Int.ofNat n))))
      | .deferred d =>
        some (tn.setArraySize (.reference (.mk ⟨false, [d]⟩ fqNone none false none) none))
  | t =>
    let q := if u then fqUniform else if v then fqVarying else fqNone
    some (.mk (create_qualified_name (get_type_name t)) q none false none)

/-- Entry point of `create_type_name` with no modifiers collected yet. -/
def create_type_name (t : MType) : Option MdlTypeName :=
  create_type_name_mods false false t

/-- Resolve a texture tag to its resource name and gamma mode
(C++ static `get_texture_resource_name_and_gamma`): checks the record
classes of the texture and its backing image, logging a diagnostic and
returning the empty name on mismatch; classifies the gamma override
only after both checks pass. -/
def get_texture_resource_name_and_gamma (s : Store) (tag : Nat) :
    Str × GammaMode × List Diag :=
  if s.classOf tag ≠ .ctexture then
    ([], .gdefault, [.badTextureClass (nameOf s tag)])
  else
    let tex := s.texture tag
    if tex.image = 0 then
      ([], .gdefault, [])
    else if s.classOf tex.image ≠ .cimage then
      ([], .gdefault, [.badImageClass (nameOf s tex.image)])
    else
      ((s.image tex.image).originalFilename, classify_gamma tex.gamma, [])

/-- Resolve a light-profile tag to its resource name
(C++ static `get_light_profile_resource_name`). -/
def get_light_profile_resource_name (s : Store) (tag : Nat) : Str × List Diag :=
  if s.classOf tag ≠ .clightprofile then
    ([], [.badLightProfileClass (nameOf s tag)])
  else
    (s.lightprofile tag, [])

/-- Resolve a bsdf-measurement tag to its resource name
(C++ static `get_bsdf_measurement_resource_name`). -/
def get_bsdf_measurement_resource_name (s : Store) (tag : Nat) : Str × List Diag :=
  if s.classOf tag ≠ .cbsdfMeasurement then
    ([], [.badBsdfMeasurementClass (nameOf s tag)])
  else
    (s.bsdfm tag, [])

/-! ## Call rewriting helpers -/

/-- Record the call's return type into the session's used-user-types
list (the code at the top of C++ `transform_call`, lines 420-434):
after skipping aliases, a user struct is recorded, and an enum is
recorded unless it is the predefined intensity-mode enum. -/
def record_user_type (rt : MType) : Eff :=
  match rt.skipAliases with
  | .mstruct sym pid => if pid = .user then ⟨[], [sym], 0⟩ else Eff.nil
  | .menum sym pid _ => if pid ≠ .intensityMode then ⟨[], [sym], 0⟩ else Eff.nil
  | _ => Eff.nil

/-- Wrap an expression as a named or positional argument, following the
calling convention flag. -/
def mkArg (named : Bool) (nm : Str) (e : MdlExpr) : MdlArg :=
  if named then .named nm e else .positional e

/-- The `state::texture_tangent_u(0)` default sub-expression inserted
by the measured-edf migrations. -/
def tangentUCall : MdlExpr :=
  .call (to_reference_q (create_qualified_name (str "state::texture_tangent_u")) none)
    [.positional (.literal (.vint 0))]

/-- Exact rational value of the 32-bit float `float(M_PI)`. -/
def floatPi : Rat := 13176795 / 4194304

/-- Argument interleaving of the measured-edf MDL 1.0 → 1.2 migration
(the `i`/`j` loop of the `n_params == 4` branch): insert the multiplier
when the output position is 1 and the tangent_u call when it is 4,
both before the current supplied argument. -/
def medfArgsV10 (named : Bool) (mult tu : MdlExpr) : Nat → List (Str × MdlExpr) → List MdlArg
  | _, [] => []
  | j, (nm, e) :: rest =>
    if j = 1 then
      mkArg named (str "multiplier") mult :: mkArg named nm e ::
        medfArgsV10 named mult tu (j + 2) rest
    else if j = 4 then
      mkArg named (str "tangent_u") tu :: mkArg named nm e ::
        medfArgsV10 named mult tu (j + 2) rest
    else
      mkArg named nm e :: medfArgsV10 named mult tu (j + 1) rest

/-- Argument interleaving of the measured-edf MDL 1.1 → 1.2 migration
(the loop of the `n_params == 5` branch): insert only the tangent_u
call at output position 4. -/
def medfArgsV11 (named : Bool) (tu : MdlExpr) : Nat → List (Str × MdlExpr) → List MdlArg
  | _, [] => []
  | j, (nm, e) :: rest =>
    if j = 4 then
      mkArg named (str "tangent_u") tu :: mkArg named nm e ::
        medfArgsV11 named tu (j + 2) rest
    else
      mkArg named nm e :: medfArgsV11 named tu (j + 1) rest

/-- Argument interleaving of the spot-edf MDL 1.0 → 1.1 migration:
insert the spread literal before supplied argument number 1. -/
def spotArgsV10 (named : Bool) (spread : MdlExpr) : Nat → List (Str × MdlExpr) → List MdlArg
  | _, [] => []
  | i, (nm, e) :: rest =>
    if i = 1 then
      mkArg named (str "spread") spread :: mkArg named nm e ::
        spotArgsV10 named spread (i + 1) rest
    else
      mkArg named nm e :: spotArgsV10 named spread (i + 1) rest

/-- Argument rebuilding of the fresnel-layer MDL 1.3 → 1.4 migration:
wrap supplied argument number 1 in a one-argument `color` constructor
call. -/
def fresnelArgsV13 (named : Bool) : Nat → List (Str × MdlExpr) → List MdlArg
  | _, [] => []
  | i, (nm, e) :: rest =>
    let e' :=
      if i = 1 then
        .call (to_reference_q (create_qualified_name (str "color")) none) [.positional e]
      else e
    mkArg named nm e' :: fresnelArgsV13 named (i + 1) rest

/-- First `np` entries of an argument list; `none` models the `NULL`
dereference when the list is shorter than the declared parameter count
(the C++ loops index `args->get_expression(i)` for `i < n_params`). -/
def getN {α : Type} (args : List α) (np : Nat) : Option (List α) :=
  if np ≤ args.length then some (args.take np) else none

/-- Reference to one of the `::tex::gamma_*` enumerators, typed with
the predefined gamma-mode enum (the `arg1: gamma` block of the texture
constructor emission). -/
def gammaRef (g : GammaMode) : MdlExpr :=
  let sym :=
    match g with
    | .gdefault => str "gamma_default"
    | .glinear => str "gamma_linear"
    | .gsrgb => str "gamma_srgb"
  .reference (.mk ⟨true, [str "tex", sym]⟩ fqNone none false
      (some (.tenumPredef .texGammaMode)))
    (some (.tenumPredef .texGammaMode))

/-! ## The fuel-indexed interpreter -/

/-- Tasks of the fuel-indexed interpreter: one constructor per
(mutually recursive) C++ transformation routine.  `targs` is the
element-wise transformation of a named argument list, `tvalues` of a
value list; `tcall` is `transform_call` (return type, semantics,
unmangled callee name, parameter count, arguments, calling
convention). -/
inductive BTask where
  | tvalue (v : NValue)
  | tvalues (l : List NValue)
  | texpr (e : NExpr)
  | targs (l : List (Str × NExpr))
  | tcall (rt : MType) (sema : Sema) (cn : Str) (np : Nat)
          (args : List (Str × NExpr)) (named : Bool)

/-- Results of the interpreter: a single expression, a list of
expressions, or a list of named expressions. -/
inductive TRes where
  | one (e : MdlExpr)
  | many (l : List MdlExpr)
  | pairs (l : List (Str × MdlExpr))

/-- The parameter substitution environment (`m_param_map`): a partial
map from expression identity to the bound symbol.  In the source the
map is keyed on the expression handle; we model it as a partial
function on expressions. -/
def ParamMap : Type := NExpr → Option Str

/-- Transform a light-profile or bsdf-measurement value (the merged
`VK_LIGHT_PROFILE` / `VK_BSDF_MEASUREMENT` branch of
`transform_value`): an invalid tag yields an invalid-reference
literal; an empty resolved name yields a pathless resource literal
carrying the raw tag id and the version-derived content hash;
otherwise a constructor call on the resolved path. -/
def transform_lp_bm (s : Store) (isLp : Bool) (tag : Nat) : Option (MdlExpr × Eff) :=
  let ty : MType := if isLp then .mlightProfile else .mbsdfMeasurement
  match create_type_name ty with
  | none => none
  | some tn =>
    if tag = 0 then
      some (.literal (.vinvalidRef (transform_type ty)), Eff.nil)
    else
      let res :=
        if isLp then get_light_profile_resource_name s tag
        else get_bsdf_measurement_resource_name s tag
      if res.1 = [] then
        let tagVer := s.tagVersion tag
        if isLp then
          some (.literal (.vlightProfile (transform_type ty) [] tag (.resHash tagVer)),
            ⟨res.2, [], 0⟩)
        else
          some (.literal (.vbsdfMeasurement (transform_type ty) [] tag (.resHash tagVer)),
            ⟨res.2, [], 0⟩)
      else
        some (.call (.reference tn none) [.positional (.literal (.vstring res.1))],
          ⟨res.2, [], 0⟩)

/-- The fuel-indexed interpreter over builder tasks.  Each constructor
arm transliterates the corresponding C++ routine:

* `tvalue` is `Mdl_ast_builder::transform_value`;
* `tvalues` is the element loop over compound/array members;
* `texpr` is `Mdl_ast_builder::transform_expr` (substitution lookup
  first, then dispatch on the expression kind);
* `targs` is the per-argument `transform_expr` loop shared by the call
  emitting branches;
* `tcall` is `Mdl_ast_builder::transform_call`: it first records the
  return type into the used-user-types list, then dispatches on the
  semantics (operator lowering, version migration, structural rewrite,
  default plain call).

Every recursive call runs on one unit less fuel; `none` means the fuel
was exhausted (never the case for any terminating source input given
enough fuel). -/
def run (s : Store) (pm : ParamMap) (ta : List (Str × NExpr)) :
    Nat → BTask → Option (TRes × Eff)
  | 0, _ => none
  | fuel + 1, t =>
    match t with
    | .tvalue v =>
      match v with
      | .vbool b => some (.one (.literal (.vbool b)), Eff.nil)
      | .vint i => some (.one (.literal (.vint i)), Eff.nil)
      | .vfloat q => some (.one (.literal (.vfloat q)), Eff.nil)
      | .vdouble q => some (.one (.literal (.vdouble q)), Eff.nil)
      | .vstring s0 => some (.one (.literal (.vstring s0)), Eff.nil)
      | .venum sym pid vals idx =>
        match vals.get? idx with
        | none => none
        | some (vname, _) =>
          let qn0 := create_scope_name sym
          let qn : QualifiedName := ⟨qn0.absolute, qn0.components ++ [vname]⟩
          let tp := convert_enum_type sym pid vals
          some (.one (to_reference_q qn (some tp)), Eff.nil)
      | .vcompound cty elems =>
        match create_type_name cty with
        | none => none
        | some tn =>
          match run s pm ta fuel (.tvalues elems) with
          | some (.many es, eff) =>
            some (.one (.call (.reference tn none) (es.map MdlArg.positional)), eff)
          | _ => none
      | .varray ety _ elems =>
        match create_type_name ety with
        | none => none
        | some tn =>
          match run s pm ta fuel (.tvalues elems) with
          | some (.many es, eff) =>
            some (.one (.call (.reference tn.setIncomplete none) (es.map MdlArg.positional)),
              eff)
          | _ => none
      | .vinvalidDf ty =>
        some (.one (.literal (.vinvalidRef (transform_type ty))), Eff.nil)
      | .vtexture sh tag =>
        match create_type_name (.mtexture sh) with
        | none => none
        | some tn =>
          let cid := if tag ≠ 0 then s.classOf tag else ClassId.cinvalid
          if tag = 0 ∨ cid ≠ ClassId.ctexture then
            some (.one (.literal (.vinvalidRef (transform_type (.mtexture sh)))), Eff.nil)
          else
            let res := get_texture_resource_name_and_gamma s tag
            if res.1 = [] then
              let imageTag := (s.texture tag).image
              some (.one (.literal (.vtexture (transform_type (.mtexture sh)) [] res.2.1 tag
                  (.texHash (s.tagVersion tag) (s.tagVersion imageTag)))),
                ⟨res.2.2, [], 0⟩)
            else
              some (.one (.call (.reference tn none)
                  [.positional (.literal (.vstring res.1)), .positional (gammaRef res.2.1)]),
                ⟨res.2.2, [], 0⟩)
      | .vlightProfile tag =>
        (transform_lp_bm s true tag).map (fun re => (.one re.1, re.2))
      | .vbsdfMeasurement tag =>
        (transform_lp_bm s false tag).map (fun re => (.one re.1, re.2))
    | .tvalues l =>
      match l with
      | [] => some (.many [], Eff.nil)
      | v :: vs =>
        match run s pm ta fuel (.tvalue v) with
        | some (.one r, e1) =>
          match run s pm ta fuel (.tvalues vs) with
          | some (.many rs, e2) => some (.many (r :: rs), Eff.app e1 e2)
          | _ => none
        | _ => none
    | .texpr e =>
      match pm e with
      | some sym => some (.one (to_reference_sym sym), Eff.nil)
      | none =>
        match e with
        | .constant v => run s pm ta fuel (.tvalue v)
        | .call tag ty =>
          match s.classOf tag with
          | .cfunctionCall =>
            let fc := s.fcall tag
            let fd := s.fdef fc.defTag
            let dfn := dag_unmangle (fd.origName.getD fd.mdlName)
            run s pm ta fuel (.tcall ty fd.sema dfn fc.paramCount fc.args false)
          | .cmaterialInst =>
            let inst := s.matInst tag
            let md := s.matDef inst.defTag
            let dfn := dag_unmangle (md.origName.getD md.mdlName)
            run s pm ta fuel (.tcall ty .unknown dfn md.paramCount inst.args true)
          | _ => some (.one .invalid, assertEff)
        | .directCall tag ty dargs =>
          match s.classOf tag with
          | .cfunctionDef =>
            let fd := s.fdef tag
            run s pm ta fuel
              (.tcall ty fd.sema (dag_unmangle (fd.origName.getD fd.mdlName))
                fd.paramCount dargs false)
          | .cmaterialDef =>
            let md := s.matDef tag
            run s pm ta fuel
              (.tcall ty .unknown (dag_unmangle (md.origName.getD md.mdlName))
                md.paramCount dargs true)
          | _ => some (.one .invalid, assertEff)
        | .parameter idx _ =>
          match ta.get? idx with
          | some pr => run s pm ta fuel (.texpr pr.2)
          | none => some (.one .invalid, ⟨[], [], 2⟩)
        | .temporary _ => some (.one .invalid, ⟨[], [], 2⟩)
        | .force32 _ => some (.one .invalid, assertEff)
    | .targs l =>
      match l with
      | [] => some (.pairs [], Eff.nil)
      | (nm, a) :: rest =>
        match run s pm ta fuel (.texpr a) with
        | some (.one r, e1) =>
          match run s pm ta fuel (.targs rest) with
          | some (.pairs rs, e2) => some (.pairs ((nm, r) :: rs), Eff.app e1 e2)
          | _ => none
        | _ => none
    | .tcall rt sema cn np args named =>
      let defaultCall : Option (MdlExpr × Eff) :=
        match getN args np with
        | none => none
        | some taken =>
          match run s pm ta fuel (.targs taken) with
          | some (.pairs ts, eff) =>
            some (.call (to_reference_q (create_qualified_name cn) none)
              (ts.map (fun p => mkArg named p.1 p.2)), eff)
          | _ => none
      let core : Option (MdlExpr × Eff) :=
        match sema with
        | .opUnary op =>
          match args.get? 0 with
          | none => none
          | some pr0 =>
            match run s pm ta fuel (.texpr pr0.2) with
            | some (.one r0, e0) => some (.unary op r0, e0)
            | _ => none
        | .opBinary op =>
          match args.get? 0, args.get? 1 with
          | some pr0, some pr1 =>
            match run s pm ta fuel (.texpr pr0.2) with
            | some (.one lhs, e0) =>
              match run s pm ta fuel (.texpr pr1.2) with
              | some (.one rhs, e1) => some (.binary op lhs rhs, Eff.app e0 e1)
              | _ => none
            | _ => none
          | _, _ => none
        | .opTernary =>
          match args.get? 0, args.get? 1, args.get? 2 with
          | some pr0, some pr1, some pr2 =>
            match run s pm ta fuel (.texpr pr0.2) with
            | some (.one c, e0) =>
              match run s pm ta fuel (.texpr pr1.2) with
              | some (.one tv, e1) =>
                match run s pm ta fuel (.texpr pr2.2) with
                | some (.one fv, e2) =>
                  some (.conditional c tv fv, Eff.app e0 (Eff.app e1 e2))
                | _ => none
              | _ => none
            | _ => none
          | _, _, _ => none
        | .measuredEdf =>
          if np = 4 then
            match getN args np with
            | none => none
            | some taken =>
              match run s pm ta fuel (.targs taken) with
              | some (.pairs ts, eff) =>
                some (.call
                  (to_reference_q (create_qualified_name (remove_deprecated cn)) none)
                  (medfArgsV10 named (.literal (.vfloat 1)) tangentUCall 0 ts), eff)
              | _ => none
          else if np = 5 then
            match getN args np with
            | none => none
            | some taken =>
              match run s pm ta fuel (.targs taken) with
              | some (.pairs ts, eff) =>
                some (.call
                  (to_reference_q (create_qualified_name (remove_deprecated cn)) none)
                  (medfArgsV11 named tangentUCall 0 ts), eff)
              | _ => none
          else defaultCall
        | .fresnelLayer =>
          if cn.contains '$' then
            match getN args np with
            | none => none
            | some taken =>
              match run s pm ta fuel (.targs taken) with
              | some (.pairs ts, eff) =>
                some (.call
                  (to_reference_q (create_qualified_name (str "::df::color_fresnel_layer"))
                    none)
                  (fresnelArgsV13 named 0 ts), eff)
              | _ => none
          else defaultCall
        | .spotEdf =>
          if np = 4 then
            match getN args np with
            | none => none
            | some taken =>
              match run s pm ta fuel (.targs taken) with
              | some (.pairs ts, eff) =>
                some (.call
                  (to_reference_q (create_qualified_name (remove_deprecated cn)) none)
                  (spotArgsV10 named (.literal (.vfloat floatPi)) 0 ts), eff)
              | _ => none
          else defaultCall
        | .roundedCornerNormal =>
          if np = 2 then
            match getN args np with
            | none => none
            | some taken =>
              match run s pm ta fuel (.targs taken) with
              | some (.pairs ts, eff) =>
                some (.call
                  (to_reference_q (create_qualified_name (remove_deprecated cn)) none)
                  (ts.map (fun p => mkArg named p.1 p.2) ++
                    [mkArg named (str "roundness") (.literal (.vfloat 1))]), eff)
              | _ => none
          else defaultCall
        | .texWidth =>
          if np = 1 then
            match args.get? 0 with
            | none => none
            | some pr0 =>
              match run s pm ta fuel (.texpr pr0.2) with
              | some (.one r0, e0) =>
                some (.call
                  (to_reference_q (create_qualified_name (remove_deprecated cn)) none)
                  (mkArg named pr0.1 r0 ::
                    (if is_tex_2d r0 then
                      [mkArg named (str "uv_tile") (.literal .vint2zero)]
                     else [])), e0)
              | _ => none
          else defaultCall
        | .texHeight =>
          if np = 1 then
            match args.get? 0 with
            | none => none
            | some pr0 =>
              match run s pm ta fuel (.texpr pr0.2) with
              | some (.one r0, e0) =>
                some (.call
                  (to_reference_q (create_qualified_name (remove_deprecated cn)) none)
                  (mkArg named pr0.1 r0 ::
                    (if is_tex_2d r0 then
                      [mkArg named (str "uv_tile") (.literal .vint2zero)]
                     else [])), e0)
              | _ => none
          else defaultCall
        | .texelFloat | .texelFloat2 | .texelFloat3 | .texelFloat4 | .texelColor =>
          if np = 2 then
            match args.get? 0, args.get? 1 with
            | some pr0, some pr1 =>
              match run s pm ta fuel (.texpr pr0.2) with
              | some (.one r0, e0) =>
                match run s pm ta fuel (.texpr pr1.2) with
                | some (.one r1, e1) =>
                  some (.call
                    (to_reference_q (create_qualified_name (remove_deprecated cn)) none)
                    (mkArg named pr0.1 r0 :: mkArg named pr1.1 r1 ::
                      (if is_tex_2d r0 then
                        [mkArg named (str "uv_tile") (.literal .vint2zero)]
                       else [])), Eff.app e0 e1)
                | _ => none
              | _ => none
            | _, _ => none
          else defaultCall
        | .dagFieldAccess =>
          match args.get? 0 with
          | none => none
          | some pr0 =>
            match run s pm ta fuel (.texpr pr0.2) with
            | some (.one compound, e0) =>
              match get_field_sym cn with
              | some f =>
                some (.binary .select compound (to_reference_sym f), e0)
              | none => some (.invalid, Eff.app e0 assertEff)
            | _ => none
        | .dagIndexAccess =>
          match args.get? 0, args.get? 1 with
          | some pr0, some pr1 =>
            match run s pm ta fuel (.texpr pr0.2) with
            | some (.one comp, e0) =>
              match run s pm ta fuel (.texpr pr1.2) with
              | some (.one index, e1) =>
                some (.binary .arrayIndex comp index, Eff.app e0 e1)
              | _ => none
            | _ => none
          | _, _ => none
        | .dagArrayConstructor =>
          match rt with
          | .marray ety _ =>
            match create_type_name ety with
            | none => none
            | some tn =>
              match getN args np with
              | none => none
              | some taken =>
                match run s pm ta fuel (.targs taken) with
                | some (.pairs ts, eff) =>
                  some (.call (.reference tn none)
                    (ts.map (fun p => MdlArg.positional p.2)), eff)
                | _ => none
          | _ => none
        | .dagArrayLength =>
          match args.get? 0 with
          | none => none
          | some pr0 =>
            match pr0.2.typeOf with
            | .marray _ (.immediate n) =>
              some (.literal (.vint (Int.ofNat n)), Eff.nil)
            | .marray _ (.deferred d) =>
              some (to_reference_q (create_qualified_name d) none, Eff.nil)
            | _ => some (.invalid, assertEff)
        | .dagSetObjectId => some (.invalid, assertEff)
        | .dagSetTransforms => some (.invalid, assertEff)
        | .unknown => defaultCall
        | .otherSema _ => defaultCall
      core.map (fun re => (TRes.one re.1, Eff.app (record_user_type rt) re.2))

/-! ## Wrappers naming the C++ entry points -/

/-- The empty parameter-substitution environment. -/
def pmEmpty : ParamMap := fun _ => none

/-- C++ `Mdl_ast_builder::transform_value` as a function of the session
state and fuel. -/
def transform_value (s : Store) (pm : ParamMap) (ta : List (Str × NExpr))
    (fuel : Nat) (v : NValue) : Option (MdlExpr × Eff) :=
  match run s pm ta fuel (.tvalue v) with
  | some (.one r, eff) => some (r, eff)
  | _ => none

/-- C++ `Mdl_ast_builder::transform_expr` as a function of the session
state and fuel. -/
def transform_expr (s : Store) (pm : ParamMap) (ta : List (Str × NExpr))
    (fuel : Nat) (e : NExpr) : Option (MdlExpr × Eff) :=
  match run s pm ta fuel (.texpr e) with
  | some (.one r, eff) => some (r, eff)
  | _ => none

/-- The element-wise transformation of a named argument list (the
`transform_expr` loops of the call-emitting branches). -/
def transform_args (s : Store) (pm : ParamMap) (ta : List (Str × NExpr))
    (fuel : Nat) (l : List (Str × NExpr)) : Option (List (Str × MdlExpr) × Eff) :=
  match run s pm ta fuel (.targs l) with
  | some (.pairs ts, eff) => some (ts, eff)
  | _ => none

/-- C++ `Mdl_ast_builder::transform_call` as a function of the session
state and fuel: return type, semantics, unmangled callee name,
parameter count, named argument list and calling convention flag. -/
def transform_call (s : Store) (pm : ParamMap) (ta : List (Str × NExpr))
    (fuel : Nat) (rt : MType) (sema : Sema) (cn : Str) (np : Nat)
    (args : List (Str × NExpr)) (named : Bool) : Option (MdlExpr × Eff) :=
  match run s pm ta fuel (.tcall rt sema cn np args named) with
  | some (.one r, eff) => some (r, eff)
  | _ => none

/-- An inert store for concrete test sessions: every tag is of an
unknown class and every record is trivial. -/
def emptyStore : Store where
  classOf := fun _ => .cinvalid
  texture := fun _ => ⟨0, 0⟩
  image := fun _ => ⟨[]⟩
  lightprofile := fun _ => []
  bsdfm := fun _ => []
  tagVersion := fun _ => 0
  tagName := fun _ => none
  fcall := fun _ => ⟨0, [], 0⟩
  fdef := fun _ => ⟨none, [], .unknown, 0⟩
  matInst := fun _ => ⟨0, []⟩
  matDef := fun _ => ⟨none, [], 0⟩

/-- Check whether an expression is a literal resource value carrying a
raw tag id (the degraded identity shape of the claimed fallback). -/
def carries_tag_id : MdlExpr → Bool
  | .literal (.vtexture _ _ _ _ _) => true
  | .literal (.vlightProfile _ _ _ _) => true
  | .literal (.vbsdfMeasurement _ _ _ _) => true
  | _ => false

/-- Concrete store for the claim C6 witness: tag 5 is a texture backed
by image tag 7 with gamma 1.0 and an empty original filename; versions
equal the tag number. -/
def storeC6 : Store :=
  { emptyStore with
    classOf := fun t => if t = 5 then .ctexture else if t = 7 then .cimage else .cinvalid
    texture := fun _ => ⟨7, 1⟩
    tagVersion := fun t => t }

/-! ## Sanity checks of the embedding on concrete inputs -/

example : dag_unmangle (str "::df::spot_edf(float)") = str "::df::spot_edf" := by decide
example : remove_deprecated (str "::df::measured_edf$1.1") = str "::df::measured_edf" := by
  decide
example : get_field_sym (str "material.surface") = some (str "surface") := by decide
example : create_qualified_name (str "::state::normal") =
    ⟨true, [str "state", str "normal"]⟩ := by decide
example : create_qualified_name (str "color") = ⟨false, [str "color"]⟩ := by decide
example : create_scope_name (str "::tex::gamma_mode") = ⟨true, [str "tex"]⟩ := by decide

example : get_type_name (.mvector .mfloat 3) = str "float3" := by decide
example : get_type_name (.mmatrix (.mvector .mfloat 4) 3) = str "float3x4" := by decide

example :
    transform_value emptyStore pmEmpty [] 1 (.vint 7) =
      some (.literal (.vint 7), Eff.nil) := rfl

example :
    transform_expr emptyStore pmEmpty [] 2 (.constant (.vbool true)) =
      some (.literal (.vbool true), Eff.nil) := rfl
example :
    get_field_sym (dag_unmangle (str "....mdle::base.surface.scattering(...)")) =
      some (str "surface.scattering") := by decide

example :
    transform_call emptyStore pmEmpty [] 7 .mbool .measuredEdf
        (str "::df::measured_edf$1.0") 4
        [(str "a", .constant (.vint 0)), (str "b", .constant (.vint 1)),
         (str "c", .constant (.vint 2)), (str "d", .constant (.vint 3))] false =
      some (.call (to_reference_q (create_qualified_name (str "::df::measured_edf")) none)
        [.positional (.literal (.vint 0)),
         .positional (.literal (.vfloat 1)),
         .positional (.literal (.vint 1)),
         .positional (.literal (.vint 2)),
         .positional tangentUCall,
         .positional (.literal (.vint 3))], Eff.nil) := rfl

/-! ## Basic lemmas about the wrappers and effects -/

theorem Eff.app_nil (a : Eff) : Eff.app a Eff.nil = a := by
  cases a with
  | mk d u n => simp [Eff.app, Eff.nil]

theorem Eff.nil_app (a : Eff) : Eff.app Eff.nil a = a := by
  cases a with
  | mk d u n => simp [Eff.app, Eff.nil]

theorem transform_expr_run {s : Store} {pm : ParamMap} {ta : List (Str × NExpr)}
    {fuel : Nat} {e : NExpr} {r : MdlExpr} {eff : Eff}
    (h : transform_expr s pm ta fuel e = some (r, eff)) :
    run s pm ta fuel (.texpr e) = some (.one r, eff) := by
  unfold transform_expr at h
  split at h
  next r' eff' heq =>
    cases h
    exact heq
  next =>
    cases h

theorem transform_args_run {s : Store} {pm : ParamMap} {ta : List (Str × NExpr)}
    {fuel : Nat} {l : List (Str × NExpr)} {ts : List (Str × MdlExpr)} {eff : Eff}
    (h : transform_args s pm ta fuel l = some (ts, eff)) :
    run s pm ta fuel (.targs l) = some (.pairs ts, eff) := by
  unfold transform_args at h
  split at h
  next ts' eff' heq =>
    cases h
    exact heq
  next =>
    cases h

theorem transform_call_run {s : Store} {pm : ParamMap} {ta : List (Str × NExpr)}
    {fuel : Nat} {rt : MType} {sema : Sema} {cn : Str} {np : Nat}
    {args : List (Str × NExpr)} {named : Bool} {r : MdlExpr} {eff : Eff}
    (h : transform_call s pm ta fuel rt sema cn np args named = some (r, eff)) :
    run s pm ta fuel (.tcall rt sema cn np args named) = some (.one r, eff) := by
  unfold transform_call at h
  split at h
  next r' eff' heq =>
    cases h
    exact heq
  next =>
    cases h

/-! ## Claim C7: gamma classification is exact equality -/

/-- Claim C7: texture gamma classification uses exact floating-point
equality, not a tolerance: a declared gamma override equal to the
float value `1.0` yields the linear mode, one equal to the float value
`2.2` (exactly `9227469/4194304`) yields the sRGB mode, and any other
value — for example the float value `1.0000001`
(exactly `8388609/8388608`) — yields the default mode. -/
theorem claim7_thm :
    classify_gamma 1 = .glinear ∧
    classify_gamma float22 = .gsrgb ∧
    classify_gamma floatNearOne = .gdefault ∧
    (∀ g : Rat, g ≠ 1 → g ≠ float22 → classify_gamma g = .gdefault) := by
  refine ⟨rfl, ?_, ?_, ?_⟩
  · have h : float22 ≠ 1 := by norm_num [float22]
    simp [classify_gamma, h]
  · have h1 : floatNearOne ≠ 1 := by norm_num [floatNearOne]
    have h2 : floatNearOne ≠ float22 := by norm_num [floatNearOne, float22]
    simp [classify_gamma, h1, h2]
  · intro g h1 h2
    simp [classify_gamma, h1, h2]

/-- Claim C7 witness: the classification evaluated at the concrete
gamma override `3.0`. -/
theorem claim7_witness :
    (3 : Rat) ≠ 1 ∧ (3 : Rat) ≠ float22 ∧ classify_gamma 3 = .gdefault := by
  refine ⟨by norm_num, by norm_num [float22], ?_⟩
  exact claim7_thm.2.2.2 3 (by norm_num) (by norm_num [float22])

/-! ## Claim C1: field-access rewriting -/

/-- Claim C1 counterexample: the field parser is first-dot based, not
last-dot based.  On the claim's scenario name
`"....mdle::base.surface.scattering(...)"` (after the usual unmangling
applied to every callee name), `get_field_sym` returns
`"surface.scattering"` — everything after the first dot following the
`".mdle::"` marker — and not the final component `"scattering"`. -/
theorem claim1_counterexample :
    get_field_sym (dag_unmangle (str "....mdle::base.surface.scattering(...)")) =
      some (str "surface.scattering") ∧
    (str "surface.scattering" : Str) ≠ str "scattering" := by
  exact ⟨by decide, by decide⟩

/-- Claim C1 (amended): for every field-access call, the Call Rewriter
parses the field identifier as everything after the first
`.`-delimited component boundary of the mangled callee name — i.e. the
suffix after the first dot that follows the optional `".mdle::"`
module-path marker (or after the first dot of the whole name when the
marker is absent); in particular, for the mangled callee name
`"....mdle::base.surface.scattering(...)"` it extracts the field
identifier `"surface.scattering"`.  It emits a binary select
expression over the recursively transformed first argument and that
field identifier, and it fails fast (assertion plus invalid
expression) when no field identifier can be parsed. -/
theorem claim1_thm (s : Store) (pm : ParamMap) (ta : List (Str × NExpr))
    (fuel : Nat) (rt : MType) (cn : Str) (np : Nat) (named : Bool)
    (nm0 : Str) (a0 : NExpr) (rest : List (Str × NExpr)) (c : MdlExpr) (e0 : Eff)
    (h0 : transform_expr s pm ta fuel a0 = some (c, e0)) :
    (∀ f, get_field_sym cn = some f →
      transform_call s pm ta (fuel + 1) rt .dagFieldAccess cn np ((nm0, a0) :: rest) named =
        some (.binary .select c (to_reference_sym f),
          Eff.app (record_user_type rt) e0)) ∧
    (get_field_sym cn = none →
      transform_call s pm ta (fuel + 1) rt .dagFieldAccess cn np ((nm0, a0) :: rest) named =
        some (.invalid, Eff.app (record_user_type rt) (Eff.app e0 assertEff))) ∧
    get_field_sym (dag_unmangle (str "....mdle::base.surface.scattering(...)")) =
      some (str "surface.scattering") := by
  refine ⟨?_, ?_, by decide⟩
  · intro f hf
    unfold transform_call
    simp only [run, List.get?, transform_expr_run h0, hf, Option.map_some']
  · intro hf
    unfold transform_call
    simp only [run, List.get?, transform_expr_run h0, hf, Option.map_some']

/-- Claim C1 witness: the select emission applied at a concrete
field-access call (callee `"m.surface"`, one constant argument). -/
theorem claim1_witness :
    transform_call emptyStore pmEmpty [] 3 .mbool .dagFieldAccess (str "m.surface") 1
        [(str "s", .constant (.vint 9))] false =
      some (.binary .select (.literal (.vint 9)) (to_reference_sym (str "surface")),
        Eff.app (record_user_type .mbool) Eff.nil) :=
  (claim1_thm emptyStore pmEmpty [] 2 .mbool (str "m.surface") 1 false
    (str "s") (.constant (.vint 9)) [] (.literal (.vint 9)) Eff.nil rfl).1
    (str "surface") (by decide)

/-! ## Claim C9: unresolvable parameters fail hard -/

/-- Claim C9: a parameter expression whose index has no corresponding
expression in the session's top-level argument list, and which is not
bound in the parameter-substitution environment, makes the Expression
Tree Builder fail — the assertion count is positive (two assertions
fire: the `parameter has no argument` one and the function-tail one)
and the result is the invalid expression — rather than producing a
default expression; when the index does have a corresponding argument,
that argument is recursively transformed. -/
theorem claim9_thm (s : Store) (pm : ParamMap) (ta : List (Str × NExpr))
    (fuel : Nat) (idx : Nat) (ty : MType) :
    (pm (.parameter idx ty) = none → ta.get? idx = none →
      transform_expr s pm ta (fuel + 1) (.parameter idx ty) =
        some (.invalid, ⟨[], [], 2⟩) ∧ (0 : Nat) < (⟨[], [], 2⟩ : Eff).asserts) ∧
    (∀ nm a, pm (.parameter idx ty) = none → ta.get? idx = some (nm, a) →
      transform_expr s pm ta (fuel + 1) (.parameter idx ty) =
        transform_expr s pm ta fuel a) := by
  constructor
  · intro hpm hta
    refine ⟨?_, by decide⟩
    unfold transform_expr
    simp only [run, hpm, hta]
  · intro nm a hpm hta
    unfold transform_expr
    simp only [run, hpm, hta]

/-- Claim C9 witness: at an empty substitution environment, a parameter
of index 0 fails hard against an empty top-level argument list, and is
recursively transformed against a singleton one. -/
theorem claim9_witness :
    (transform_expr emptyStore pmEmpty [] 1 (.parameter 0 .mint) =
        some (.invalid, ⟨[], [], 2⟩) ∧ (0 : Nat) < (⟨[], [], 2⟩ : Eff).asserts) ∧
    transform_expr emptyStore pmEmpty [(str "x", .constant (.vint 3))] 2
        (.parameter 0 .mint) =
      transform_expr emptyStore pmEmpty [(str "x", .constant (.vint 3))] 1
        (.constant (.vint 3)) :=
  ⟨(claim9_thm emptyStore pmEmpty [] 0 0 .mint).1 rfl rfl,
   (claim9_thm emptyStore pmEmpty [(str "x", .constant (.vint 3))] 1 0 .mint).2
     (str "x") (.constant (.vint 3)) rfl rfl⟩

/-! ## Claim C10: substitution lookup precedes all dispatch -/

/-- Claim C10: for every expression bound in the parameter-substitution
environment, the Expression Tree Builder immediately returns a
reference to the bound symbol — regardless of the expression's kind,
with no sub-expression transformed and no effect emitted — and the
result does not depend on the object store at all (the store is
universally quantified after the binding hypothesis and absent from
the result). -/
theorem claim10_thm (pm : ParamMap) (ta : List (Str × NExpr)) (fuel : Nat)
    (e : NExpr) (sym : Str) (h : pm e = some sym) (s : Store) :
    transform_expr s pm ta (fuel + 1) e = some (to_reference_sym sym, Eff.nil) := by
  unfold transform_expr
  simp only [run, h]

/-- Claim C10 witness: an everywhere-bound substitution environment
maps a call expression to a plain reference under two different
stores — including one where the call's tag resolves to a function
call record — without consulting either store. -/
theorem claim10_witness :
    transform_expr emptyStore (fun _ => some (str "p")) [] 1 (.call 3 .mbool) =
      some (to_reference_sym (str "p"), Eff.nil) ∧
    transform_expr
        { emptyStore with classOf := fun _ => .cfunctionCall }
        (fun _ => some (str "p")) [] 1 (.call 3 .mbool) =
      some (to_reference_sym (str "p"), Eff.nil) :=
  ⟨claim10_thm (fun _ => some (str "p")) [] 0 (.call 3 .mbool) (str "p") rfl emptyStore,
   claim10_thm (fun _ => some (str "p")) [] 0 (.call 3 .mbool) (str "p") rfl
     { emptyStore with classOf := fun _ => .cfunctionCall }⟩

/-! ## Claim C8: array-length rewriting -/

/-- Claim C8: for every array-length call, if the sole argument's type
is an immediate-sized array of size `n`, the result is a literal
integer equal to `n`; if it is a deferred-sized array named `d`, the
result is a reference to that name; and if the sole argument's type is
not an array, the rewrite fails with an invariant violation (an
assertion fires and the invalid expression is returned) rather than a
normal expression.  The only session effect is the usual return-type
recording. -/
theorem claim8_thm (s : Store) (pm : ParamMap) (ta : List (Str × NExpr))
    (fuel : Nat) (rt : MType) (cn : Str) (np : Nat) (named : Bool)
    (nm0 : Str) (a0 : NExpr) (rest : List (Str × NExpr)) :
    (∀ ety n, a0.typeOf = .marray ety (.immediate n) →
      transform_call s pm ta (fuel + 1) rt .dagArrayLength cn np ((nm0, a0) :: rest) named =
        some (.literal (.vint (Int.ofNat n)), record_user_type rt)) ∧
    (∀ ety d, a0.typeOf = .marray ety (.deferred d) →
      transform_call s pm ta (fuel + 1) rt .dagArrayLength cn np ((nm0, a0) :: rest) named =
        some (to_reference_q (create_qualified_name d) none, record_user_type rt)) ∧
    ((∀ ety sz, a0.typeOf ≠ .marray ety sz) →
      transform_call s pm ta (fuel + 1) rt .dagArrayLength cn np ((nm0, a0) :: rest) named =
        some (.invalid, Eff.app (record_user_type rt) assertEff) ∧
      (0 : Nat) < assertEff.asserts) := by
  refine ⟨?_, ?_, ?_⟩
  · intro ety n h
    unfold transform_call
    simp only [run, List.get?, h, Option.map_some', Eff.app_nil]
  · intro ety d h
    unfold transform_call
    simp only [run, List.get?, h, Option.map_some', Eff.app_nil]
  · intro h
    refine ⟨?_, by decide⟩
    cases hta : a0.typeOf
    case marray ety sz => exact absurd hta (h ety sz)
    all_goals
      unfold transform_call
    all_goals
      simp only [run, List.get?, hta, Option.map_some']

/-- Claim C8 witness: an immediate array of size 5 yields the literal
`5`; a deferred array named `"n"` yields a reference to the symbol
`n`; a non-array argument yields the asserting invalid result. -/
theorem claim8_witness :
    transform_call emptyStore pmEmpty [] 1 .mbool .dagArrayLength (str "f") 1
        [(str "a", .parameter 0 (.marray .mfloat (.immediate 5)))] false =
      some (.literal (.vint (Int.ofNat 5)), record_user_type .mbool) ∧
    transform_call emptyStore pmEmpty [] 1 .mbool .dagArrayLength (str "f") 1
        [(str "a", .parameter 0 (.marray .mfloat (.deferred (str "n"))))] false =
      some (to_reference_q (create_qualified_name (str "n")) none,
        record_user_type .mbool) ∧
    transform_call emptyStore pmEmpty [] 1 .mbool .dagArrayLength (str "f") 1
        [(str "a", .parameter 0 .mint)] false =
      some (.invalid, Eff.app (record_user_type .mbool) assertEff) :=
  ⟨(claim8_thm emptyStore pmEmpty [] 0 .mbool (str "f") 1 false (str "a")
      (.parameter 0 (.marray .mfloat (.immediate 5))) []).1 .mfloat 5 rfl,
   (claim8_thm emptyStore pmEmpty [] 0 .mbool (str "f") 1 false (str "a")
      (.parameter 0 (.marray .mfloat (.deferred (str "n")))) []).2.1 .mfloat (str "n") rfl,
   ((claim8_thm emptyStore pmEmpty [] 0 .mbool (str "f") 1 false (str "a")
      (.parameter 0 .mint) []).2.2 (by intro ety sz h; cases h)).1⟩

/-! ## Claim C4: operator lowering takes precedence -/

/-- Claim C4: for every call whose semantic tag denotes an operator,
the Call Rewriter lowers it to a unary-operator expression over one
recursively transformed operand, a binary-operator expression over
two, or a conditional expression over exactly three (condition, then,
else); the result is exactly the operator expression — no version
migration and no structural rewrite is ever applied to such a call
(the only other effect is the return-type recording performed at the
top of `transform_call`). -/
theorem claim4_thm (s : Store) (pm : ParamMap) (ta : List (Str × NExpr))
    (fuel : Nat) (rt : MType) (cn : Str) (np : Nat) (named : Bool) :
    (∀ (op : Nat) (nm0 : Str) (a0 : NExpr) (rest : List (Str × NExpr))
       (r0 : MdlExpr) (e0 : Eff),
      transform_expr s pm ta fuel a0 = some (r0, e0) →
      transform_call s pm ta (fuel + 1) rt (.opUnary op) cn np ((nm0, a0) :: rest) named =
        some (.unary op r0, Eff.app (record_user_type rt) e0)) ∧
    (∀ (op : BinOp) (nm0 nm1 : Str) (a0 a1 : NExpr) (rest : List (Str × NExpr))
       (l r : MdlExpr) (e0 e1 : Eff),
      transform_expr s pm ta fuel a0 = some (l, e0) →
      transform_expr s pm ta fuel a1 = some (r, e1) →
      transform_call s pm ta (fuel + 1) rt (.opBinary op) cn np
          ((nm0, a0) :: (nm1, a1) :: rest) named =
        some (.binary op l r, Eff.app (record_user_type rt) (Eff.app e0 e1))) ∧
    (∀ (nm0 nm1 nm2 : Str) (a0 a1 a2 : NExpr) (rest : List (Str × NExpr))
       (c tv fv : MdlExpr) (e0 e1 e2 : Eff),
      transform_expr s pm ta fuel a0 = some (c, e0) →
      transform_expr s pm ta fuel a1 = some (tv, e1) →
      transform_expr s pm ta fuel a2 = some (fv, e2) →
      transform_call s pm ta (fuel + 1) rt .opTernary cn np
          ((nm0, a0) :: (nm1, a1) :: (nm2, a2) :: rest) named =
        some (.conditional c tv fv,
          Eff.app (record_user_type rt) (Eff.app e0 (Eff.app e1 e2)))) := by
  refine ⟨?_, ?_, ?_⟩
  · intro op nm0 a0 rest r0 e0 h0
    unfold transform_call
    simp only [run, List.get?, transform_expr_run h0, Option.map_some']
  · intro op nm0 nm1 a0 a1 rest l r e0 e1 h0 h1
    unfold transform_call
    simp only [run, List.get?, transform_expr_run h0, transform_expr_run h1,
      Option.map_some']
  · intro nm0 nm1 nm2 a0 a1 a2 rest c tv fv e0 e1 e2 h0 h1 h2
    unfold transform_call
    simp only [run, List.get?, transform_expr_run h0, transform_expr_run h1,
      transform_expr_run h2, Option.map_some']

/-- Claim C4 witness: the three operator shapes evaluated on constant
operands. -/
theorem claim4_witness :
    transform_call emptyStore pmEmpty [] 3 .mbool (.opUnary 1) (str "o") 9
        [(str "x", .constant (.vint 4))] false =
      some (.unary 1 (.literal (.vint 4)),
        Eff.app (record_user_type .mbool) Eff.nil) ∧
    transform_call emptyStore pmEmpty [] 3 .mbool (.opBinary (.opCode 7)) (str "o") 9
        [(str "x", .constant (.vint 4)), (str "y", .constant (.vint 5))] false =
      some (.binary (.opCode 7) (.literal (.vint 4)) (.literal (.vint 5)),
        Eff.app (record_user_type .mbool) (Eff.app Eff.nil Eff.nil)) ∧
    transform_call emptyStore pmEmpty [] 3 .mbool .opTernary (str "o") 9
        [(str "c", .constant (.vbool true)), (str "t", .constant (.vint 1)),
         (str "e", .constant (.vint 2))] false =
      some (.conditional (.literal (.vbool true)) (.literal (.vint 1)) (.literal (.vint 2)),
        Eff.app (record_user_type .mbool) (Eff.app Eff.nil (Eff.app Eff.nil Eff.nil))) :=
  ⟨(claim4_thm emptyStore pmEmpty [] 2 .mbool (str "o") 9 false).1 1
      (str "x") (.constant (.vint 4)) [] (.literal (.vint 4)) Eff.nil rfl,
   (claim4_thm emptyStore pmEmpty [] 2 .mbool (str "o") 9 false).2.1 (.opCode 7)
      (str "x") (str "y") (.constant (.vint 4)) (.constant (.vint 5)) []
      (.literal (.vint 4)) (.literal (.vint 5)) Eff.nil Eff.nil rfl rfl,
   (claim4_thm emptyStore pmEmpty [] 2 .mbool (str "o") 9 false).2.2
      (str "c") (str "t") (str "e") (.constant (.vbool true)) (.constant (.vint 1))
      (.constant (.vint 2)) [] (.literal (.vbool true)) (.literal (.vint 1))
      (.literal (.vint 2)) Eff.nil Eff.nil Eff.nil rfl rfl rfl⟩

/-! ## Claim C5: the measured-edf 4-argument migration -/

/-- Claim C5: for a measured-edf call supplied with the old arity of 4
arguments, the migration emits a call to the suffix-stripped callee
with 6 arguments: the literal `1.0` multiplier inserted at position 2
(counting from 1), a call to the tangent-u state accessor with integer
argument 0 inserted at position 5, and the four supplied arguments each
individually re-transformed (element-wise, in order, via
`transform_args`) and re-emitted in their original relative order,
preserving the caller's positional-vs-named convention through
`mkArg`. -/
theorem claim5_thm (s : Store) (pm : ParamMap) (ta : List (Str × NExpr))
    (fuel : Nat) (rt : MType) (cn : Str) (named : Bool)
    (n0 n1 n2 n3 : Str) (a0 a1 a2 a3 : NExpr)
    (r0 r1 r2 r3 : MdlExpr) (eff : Eff)
    (h : transform_args s pm ta fuel [(n0, a0), (n1, a1), (n2, a2), (n3, a3)] =
      some ([(n0, r0), (n1, r1), (n2, r2), (n3, r3)], eff)) :
    transform_call s pm ta (fuel + 1) rt .measuredEdf cn 4
        [(n0, a0), (n1, a1), (n2, a2), (n3, a3)] named =
      some (.call (to_reference_q (create_qualified_name (remove_deprecated cn)) none)
        [mkArg named n0 r0,
         mkArg named (str "multiplier") (.literal (.vfloat 1)),
         mkArg named n1 r1,
         mkArg named n2 r2,
         mkArg named (str "tangent_u") tangentUCall,
         mkArg named n3 r3],
        Eff.app (record_user_type rt) eff) := by
  unfold transform_call
  have hg : getN [(n0, a0), (n1, a1), (n2, a2), (n3, a3)] 4 =
      some [(n0, a0), (n1, a1), (n2, a2), (n3, a3)] := by
    simp [getN]
  simp only [run, hg, transform_args_run h, Option.map_some']
  simp [medfArgsV10]

/-- Claim C5 witness: the migration evaluated at four constant
arguments under the positional convention, with the deprecated suffix
`$1.0` stripped from the callee name. -/
theorem claim5_witness :
    transform_call emptyStore pmEmpty [] 7 .mbool .measuredEdf
        (str "::df::measured_edf$1.0") 4
        [(str "profile", .constant (.vint 0)), (str "b", .constant (.vint 1)),
         (str "c", .constant (.vint 2)), (str "d", .constant (.vint 3))] false =
      some (.call
        (to_reference_q (create_qualified_name
          (remove_deprecated (str "::df::measured_edf$1.0"))) none)
        [mkArg false (str "profile") (.literal (.vint 0)),
         mkArg false (str "multiplier") (.literal (.vfloat 1)),
         mkArg false (str "b") (.literal (.vint 1)),
         mkArg false (str "c") (.literal (.vint 2)),
         mkArg false (str "tangent_u") tangentUCall,
         mkArg false (str "d") (.literal (.vint 3))],
        Eff.app (record_user_type .mbool) Eff.nil) :=
  claim5_thm emptyStore pmEmpty [] 6 .mbool (str "::df::measured_edf$1.0") false
    (str "profile") (str "b") (str "c") (str "d")
    (.constant (.vint 0)) (.constant (.vint 1)) (.constant (.vint 2))
    (.constant (.vint 3))
    (.literal (.vint 0)) (.literal (.vint 1)) (.literal (.vint 2)) (.literal (.vint 3))
    Eff.nil rfl

/-! ## Claim C3: texture with an invalid store tag -/

/-- Claim C3 counterexample: materializing a texture value whose store
tag is invalid (tag 0) produces the invalid-reference literal typed
with the mapped texture type, but with an empty diagnostic list — zero
messages, not the one message the claim states (the resolver that logs
is never reached on this path). -/
theorem claim3_counterexample :
    transform_value emptyStore pmEmpty [] 1 (.vtexture .s2d 0) =
      some (.literal (.vinvalidRef (some (.ttexture .s2d))), Eff.nil) ∧
    Eff.nil.diags.length = 0 := ⟨rfl, rfl⟩

/-- Claim C3 (amended): materializing a texture value whose store tag
is invalid (or names a record that is not a texture) produces an
invalid-reference literal typed with the mapped texture type, emits no
diagnostic message, and does not abort the rewrite pass (no assertion
fires and a normal result is returned). -/
theorem claim3_thm (s : Store) (pm : ParamMap) (ta : List (Str × NExpr))
    (fuel : Nat) (sh : TexShape) (tag : Nat)
    (h : tag = 0 ∨ s.classOf tag ≠ .ctexture) :
    transform_value s pm ta (fuel + 1) (.vtexture sh tag) =
      some (.literal (.vinvalidRef (transform_type (.mtexture sh))), Eff.nil) ∧
    Eff.nil.diags = [] ∧ Eff.nil.asserts = 0 := by
  refine ⟨?_, rfl, rfl⟩
  unfold transform_value
  have hctn : create_type_name (.mtexture sh) =
      some (.mk (create_qualified_name (get_type_name (.mtexture sh)))
        fqNone none false none) := rfl
  rcases h with h | h
  · subst h
    simp [run, hctn]
  · rcases Nat.eq_zero_or_pos tag with h0 | h0
    · subst h0
      simp [run, hctn]
    · have hne : tag ≠ 0 := Nat.pos_iff_ne_zero.mp h0
      simp [run, hctn, hne, h]

/-- Claim C3 witness: the amended statement applied at the invalid tag
0 in a concrete session. -/
theorem claim3_witness :
    transform_value emptyStore pmEmpty [] 1 (.vtexture .s2d 0) =
      some (.literal (.vinvalidRef (transform_type (.mtexture .s2d))), Eff.nil) ∧
    Eff.nil.diags = [] ∧ Eff.nil.asserts = 0 :=
  claim3_thm emptyStore pmEmpty [] 0 .s2d 0 (Or.inl rfl)

/-! ## Claim C6: degraded resource identity -/

/-- Claim C6 counterexample: materializing a texture whose store tag is
invalid (tag 0) does not produce a literal resource value carrying the
raw tag id and a content hash — it produces an invalid-reference
literal, which carries neither. -/
theorem claim6_counterexample :
    transform_value emptyStore pmEmpty [] 1 (.vtexture .s2d 0) =
      some (.literal (.vinvalidRef (some (.ttexture .s2d))), Eff.nil) ∧
    carries_tag_id (.literal (.vinvalidRef (some (.ttexture .s2d)))) = false :=
  ⟨rfl, rfl⟩

/-- Claim C6 (amended): when materializing a texture, light-profile, or
bsdf-measurement value whose store tag is absent/invalid, the Value
Materializer emits an invalid-reference literal (carrying no tag id or
hash); when the store tag is valid but path resolution returns an
empty result, it emits a literal resource value carrying no path but
carrying the raw tag id and a content hash derived from the current
store version of the resource record — and, for textures, also the
version of its backing image. -/
theorem claim6_thm (s : Store) (pm : ParamMap) (ta : List (Str × NExpr)) (fuel : Nat) :
    (∀ sh, transform_value s pm ta (fuel + 1) (.vtexture sh 0) =
      some (.literal (.vinvalidRef (transform_type (.mtexture sh))), Eff.nil)) ∧
    (transform_value s pm ta (fuel + 1) (.vlightProfile 0) =
      some (.literal (.vinvalidRef (some .tlightProfile)), Eff.nil)) ∧
    (transform_value s pm ta (fuel + 1) (.vbsdfMeasurement 0) =
      some (.literal (.vinvalidRef (some .tbsdfMeasurement)), Eff.nil)) ∧
    (∀ sh tag g ds, tag ≠ 0 → s.classOf tag = .ctexture →
      get_texture_resource_name_and_gamma s tag = ([], g, ds) →
      transform_value s pm ta (fuel + 1) (.vtexture sh tag) =
        some (.literal (.vtexture (transform_type (.mtexture sh)) [] g tag
          (.texHash (s.tagVersion tag) (s.tagVersion (s.texture tag).image))),
          ⟨ds, [], 0⟩)) ∧
    (∀ tag ds, tag ≠ 0 →
      get_light_profile_resource_name s tag = ([], ds) →
      transform_value s pm ta (fuel + 1) (.vlightProfile tag) =
        some (.literal (.vlightProfile (some .tlightProfile) [] tag
          (.resHash (s.tagVersion tag))), ⟨ds, [], 0⟩)) ∧
    (∀ tag ds, tag ≠ 0 →
      get_bsdf_measurement_resource_name s tag = ([], ds) →
      transform_value s pm ta (fuel + 1) (.vbsdfMeasurement tag) =
        some (.literal (.vbsdfMeasurement (some .tbsdfMeasurement) [] tag
          (.resHash (s.tagVersion tag))), ⟨ds, [], 0⟩)) := by
  refine ⟨?_, ?_, ?_, ?_, ?_, ?_⟩
  · intro sh
    have hctn : create_type_name (.mtexture sh) =
        some (.mk (create_qualified_name (get_type_name (.mtexture sh)))
          fqNone none false none) := rfl
    unfold transform_value
    simp [run, hctn]
  · unfold transform_value
    simp only [run, transform_lp_bm]
    rfl
  · unfold transform_value
    simp only [run, transform_lp_bm]
    rfl
  · intro sh tag g ds hne hcls hres
    have hctn : create_type_name (.mtexture sh) =
        some (.mk (create_qualified_name (get_type_name (.mtexture sh)))
          fqNone none false none) := rfl
    unfold transform_value
    simp [run, hctn, hne, hcls, hres]
  · intro tag ds hne hres
    unfold transform_value
    simp [run, transform_lp_bm, hne, hres]
    rfl
  · intro tag ds hne hres
    unfold transform_value
    simp [run, transform_lp_bm, hne, hres]
    rfl

/-- Claim C6 witness: the texture hash-fallback branch applied at the
valid tag 5 whose resolution yields an empty path: the emitted literal
carries no path but the raw tag id 5 and the hash of versions (5, 7). -/
theorem claim6_witness :
    transform_value storeC6 pmEmpty [] 1 (.vtexture .s2d 5) =
      some (.literal (.vtexture (transform_type (.mtexture .s2d)) [] .glinear 5
        (.texHash 5 7)), ⟨[], [], 0⟩) :=
  (claim6_thm storeC6 pmEmpty [] 0).2.2.2.1 .s2d 5 .glinear []
    (by decide) rfl rfl

/-! ## Claim C2: the used-user-types recording -/

/-- Claim C2 counterexample: the user-type recording is not confined to
the default plain-call branch.  A unary-operator call whose return type
is the user struct `"::m::S"` is lowered to a unary expression — the
operator branch, not the plain-call branch — and still pushes the
struct's symbol into the session's used-user-types list. -/
theorem claim2_counterexample :
    transform_call emptyStore pmEmpty [] 3 (.mstruct (str "::m::S") .user) (.opUnary 0)
        (str "::m::f") 1 [(str "x", .constant (.vint 1))] false =
      some (.unary 0 (.literal (.vint 1)), ⟨[], [str "::m::S"], 0⟩) ∧
    ([str "::m::S"] : List Str) ≠ [] := ⟨rfl, by decide⟩

/-- Claim C2 (amended): the session's accumulated user-type list is
extended at the entry of every `transform_call` invocation — before and
regardless of operator lowering, version migration, or structural
dispatch — exactly when the call's return type (after skipping
aliases) is a user struct or an enum other than the predefined
intensity-mode enum (`record_user_type`); the effect of every
successful call therefore starts with that recording. -/
theorem claim2_thm (s : Store) (pm : ParamMap) (ta : List (Str × NExpr))
    (fuel : Nat) (rt : MType) (sema : Sema) (cn : Str) (np : Nat)
    (args : List (Str × NExpr)) (named : Bool) (r : MdlExpr) (eff : Eff)
    (h : transform_call s pm ta fuel rt sema cn np args named = some (r, eff)) :
    ∃ rest, eff.userTypes = (record_user_type rt).userTypes ++ rest := by
  have hrun := transform_call_run h
  cases fuel with
  | zero => simp [run] at hrun
  | succ f =>
    simp only [run] at hrun
    rw [Option.map_eq_some'] at hrun
    obtain ⟨⟨r0, e0⟩, hcore, heq⟩ := hrun
    have heff : eff = Eff.app (record_user_type rt) e0 := by
      have := congrArg Prod.snd heq
      simpa using this.symm
    exact ⟨e0.userTypes, by rw [heff]; rfl⟩

/-- Claim C2 witness: the recording observed through the amended
statement at the counterexample's unary-operator call. -/
theorem claim2_witness :
    ∃ rest, (⟨[], [str "::m::S"], 0⟩ : Eff).userTypes =
      (record_user_type (.mstruct (str "::m::S") .user)).userTypes ++ rest :=
  claim2_thm emptyStore pmEmpty [] 3 (.mstruct (str "::m::S") .user) (.opUnary 0)
    (str "::m::f") 1 [(str "x", .constant (.vint 1))] false
    (.unary 0 (.literal (.vint 1))) ⟨[], [str "::m::S"], 0⟩ rfl
